import Mathlib

set_option maxRecDepth 100000

/-!
Verification development for the `kartina` repository (audio-reactive sphere
visualizer).  The definitions below are shallow embeddings of the Rust source:

* `src/state/vertex/mod.rs` — `Vertex`, `sphere_vertices`, `sphere_indices`;
* `src/state/camera/mod.rs` — `Camera`, `build_view_projection_matrix`,
  `OPENGL_TO_WGPU_MATRIX`;
* `src/state/mod.rs`        — `State`, `resize`, `input`, `update`, and the
  index-format binding of `render`;
* `src/main.rs`             — the redraw tick and its surface-error policy.

`f32` values are modelled by the type `F` below: a real number (exact
arithmetic, ignoring rounding and signed zero), a signed infinity, or NaN.
This keeps the IEEE behaviour of division by zero and of the Rust `%`
operator (truncated remainder) observable, which several claims depend on.
Machine integers that stay far from overflow (`u32` indices, `i16` samples)
are modelled by `ℕ` / `ℤ`.
-/

/-- Model of an `f32` value: NaN, a signed infinity (`true` = negative),
or a finite value represented exactly as a real number. -/
inductive F where
  | nan : F
  | inf : Bool → F
  | fin : ℝ → F

/-- Truncation toward zero, as performed by Rust's float `%` operator
(`x.trunc`): floor for non-negative arguments, ceiling for negative ones. -/
noncomputable def rtrunc (x : ℝ) : ℝ :=
  if 0 ≤ x then (⌊x⌋ : ℝ) else (⌈x⌉ : ℝ)

/-- IEEE-style addition on the `f32` model. -/
noncomputable def F.add : F → F → F
  | F.nan, _ => F.nan
  | _, F.nan => F.nan
  | F.inf s, F.inf t => if s = t then F.inf s else F.nan
  | F.inf s, F.fin _ => F.inf s
  | F.fin _, F.inf t => F.inf t
  | F.fin a, F.fin b => F.fin (a + b)

/-- IEEE-style multiplication on the `f32` model. -/
noncomputable def F.mul : F → F → F
  | F.nan, _ => F.nan
  | _, F.nan => F.nan
  | F.inf s, F.inf t => F.inf (xor s t)
  | F.inf s, F.fin b => if b = 0 then F.nan else F.inf (xor s (decide (b < 0)))
  | F.fin a, F.inf t => if a = 0 then F.nan else F.inf (xor (decide (a < 0)) t)
  | F.fin a, F.fin b => F.fin (a * b)

/-- IEEE-style division on the `f32` model: a nonzero finite value divided
by zero is a signed infinity, `0.0 / 0.0` is NaN. -/
noncomputable def F.div : F → F → F
  | F.nan, _ => F.nan
  | _, F.nan => F.nan
  | F.inf _, F.inf _ => F.nan
  | F.inf s, F.fin b => F.inf (xor s (decide (b < 0)))
  | F.fin _, F.inf _ => F.fin 0
  | F.fin a, F.fin b =>
      if b = 0 then (if a = 0 then F.nan else F.inf (decide (a < 0)))
      else F.fin (a / b)

/-- Rust's float `%` (truncated remainder, sign of the dividend) on the
`f32` model: `a % b = a - b * (a / b).trunc`; an infinite dividend or a zero
divisor yields NaN, a finite dividend with infinite divisor is returned
unchanged. -/
noncomputable def F.rem : F → F → F
  | F.nan, _ => F.nan
  | _, F.nan => F.nan
  | F.inf _, _ => F.nan
  | F.fin a, F.inf _ => F.fin a
  | F.fin a, F.fin b =>
      if b = 0 then F.nan else F.fin (a - b * rtrunc (a / b))

noncomputable instance : Add F := ⟨F.add⟩

noncomputable instance : Mul F := ⟨F.mul⟩

noncomputable instance : Div F := ⟨F.div⟩

noncomputable instance : Mod F := ⟨F.rem⟩

/-- One decoded mp3 frame (`minimp3::Frame`); only the three `i16` sample
slots `data[0]`, `data[1]`, `data[2]` are read by the program. -/
structure Frame where
  data : ℤ × ℤ × ℤ

/-- `Vertex` from `src/state/vertex/mod.rs`: a position and a color, each
three `f32` values. -/
structure Vertex where
  position : F × F × F
  color : F × F × F

/-- `Vertex::change_color` (`src/state/vertex/mod.rs`, lines 43-48):
overwrite the color componentwise with `new_color`. -/
def Vertex.change_color (v : Vertex) (new_color : F × F × F) : Vertex :=
  { v with color := new_color }

/-- Body of the nested loops of `Vertex::sphere_vertices`
(`src/state/vertex/mod.rs`, lines 106-120) for stack index `i` and sector
index `j`: note the source computes `xy` and `z` from `r / 10.0`, not `r`. -/
noncomputable def sphereVertex (r : ℝ) (i j : ℕ) : Vertex :=
  let stack_step : ℝ := Real.pi / 18
  let sector_step : ℝ := 2 * Real.pi / 36
  let stack_angle : ℝ := Real.pi / 2 - (i : ℝ) * stack_step
  let xy : ℝ := (r / 10) * Real.cos stack_angle
  let z : ℝ := (r / 10) * Real.sin stack_angle
  let sector_angle : ℝ := (j : ℝ) * sector_step
  let x : ℝ := xy * Real.cos sector_angle
  let y : ℝ := xy * Real.sin sector_angle
  { position := (F.fin x, F.fin y, F.fin z), color := (F.fin 0, F.fin 0, F.fin 0) }

/-- `Vertex::sphere_vertices` (`src/state/vertex/mod.rs`, lines 97-123):
`for i in 0..=18 { for j in 0..=36 { vertices.push(...) } }`. -/
noncomputable def Vertex.sphere_vertices (r : ℝ) : List Vertex :=
  (List.range 19).flatMap fun i => (List.range 37).map fun j => sphereVertex r i j

/-- Inner loop of `Vertex::sphere_indices` (`src/state/vertex/mod.rs`,
lines 151-165): `countdown` iterations remain, `k1` and `k2` are the running
indices incremented at the end of each iteration. -/
def indicesInner (i : ℕ) : ℕ → ℕ → ℕ → List ℕ
  | 0, _, _ => []
  | countdown + 1, k1, k2 =>
      (if i ≠ 0 then [k1, k2, k1 + 1] else []) ++
      (if i ≠ 17 then [k1 + 1, k2, k2 + 1] else []) ++
      indicesInner i countdown (k1 + 1) (k2 + 1)

/-- `Vertex::sphere_indices` (`src/state/vertex/mod.rs`, lines 145-168):
for each `i in 0..18`, `k1` starts at `i * 37` and `k2` at `k1 + 37`, and the
inner loop runs for `j in 0..36`. -/
def Vertex.sphere_indices : List ℕ :=
  (List.range 18).flatMap fun i => indicesInner i 36 (i * 37) (i * 37 + 37)

/-- Group a flat index list into consecutive triples (one per triangle). -/
def triplesOf : List ℕ → List (ℕ × ℕ × ℕ)
  | a :: b :: c :: rest => (a, b, c) :: triplesOf rest
  | _ => []

/-- 4×4 matrix of `f32` values, modelled over the reals. -/
abbrev M4 := Matrix (Fin 4) (Fin 4) ℝ

/-- Three-component `f32` vector, modelled over the reals. -/
abbrev V3 := ℝ × ℝ × ℝ

/-- Componentwise vector subtraction. -/
def vsub (a b : V3) : V3 := (a.1 - b.1, a.2.1 - b.2.1, a.2.2 - b.2.2)

/-- Euclidean dot product. -/
def vdot (a b : V3) : ℝ := a.1 * b.1 + a.2.1 * b.2.1 + a.2.2 * b.2.2

/-- Cross product. -/
def vcross (a b : V3) : V3 :=
  (a.2.1 * b.2.2 - a.2.2 * b.2.1,
   a.2.2 * b.1 - a.1 * b.2.2,
   a.1 * b.2.1 - a.2.1 * b.1)

/-- Normalization to unit length (`cgmath`'s `normalize`). -/
noncomputable def vnormalize (v : V3) : V3 :=
  let n := Real.sqrt (vdot v v)
  (v.1 / n, v.2.1 / n, v.2.2 / n)

/-- `cgmath::Matrix4::look_at_rh(eye, center, up)`: the right-handed view
matrix built from the forward, side and up directions. -/
noncomputable def look_at_rh (eye center up : V3) : M4 :=
  let f := vnormalize (vsub center eye)
  let s := vnormalize (vcross f up)
  let u := vcross s f
  !![s.1, s.2.1, s.2.2, -vdot s eye;
     u.1, u.2.1, u.2.2, -vdot u eye;
     -f.1, -f.2.1, -f.2.2, vdot f eye;
     0, 0, 0, 1]

/-- `cgmath::perspective(Deg(fovy), aspect, near, far)`: the OpenGL-style
perspective projection, with the field of view given in degrees. -/
noncomputable def perspective (fovy aspect znear zfar : ℝ) : M4 :=
  let f := 1 / Real.tan (fovy * Real.pi / 180 / 2)
  !![f / aspect, 0, 0, 0;
     0, f, 0, 0;
     0, 0, (zfar + znear) / (znear - zfar), 2 * zfar * znear / (znear - zfar);
     0, 0, -1, 0]

/-- `cgmath::Matrix4::from_angle_z(Deg θ)`: rotation about the z axis by
`θ` degrees. -/
noncomputable def from_angle_z (θ : ℝ) : M4 :=
  let c := Real.cos (θ * Real.pi / 180)
  let s := Real.sin (θ * Real.pi / 180)
  !![c, -s, 0, 0;
     s, c, 0, 0;
     0, 0, 1, 0;
     0, 0, 0, 1]

/-- `OPENGL_TO_WGPU_MATRIX` (`src/state/camera/mod.rs`, lines 48-50);
the column-major constructor arguments written as a row-major matrix. -/
noncomputable def OPENGL_TO_WGPU_MATRIX : M4 :=
  !![1, 0, 0, 0;
     0, 1, 0, 0;
     0, 0, 0.5, 0.5;
     0, 0, 0, 1]

/-- `Camera` (`src/state/camera/mod.rs`, lines 21-29). -/
structure Camera where
  eye : V3
  target : V3
  up : V3
  aspect : ℝ
  fovy : ℝ
  znear : ℝ
  zfar : ℝ

/-- `Camera::build_view_projection_matrix` (`src/state/camera/mod.rs`,
lines 40-44): `proj * view`. -/
noncomputable def Camera.build_view_projection_matrix (c : Camera) : M4 :=
  let view := look_at_rh c.eye c.target c.up
  let proj := perspective c.fovy c.aspect c.znear c.zfar
  proj * view

/-- `Uniforms` (`src/state/mod.rs`, lines 57-61). -/
structure Uniforms where
  view_proj : M4

/-- `UniformStaging` (`src/state/mod.rs`, lines 29-32); `model_rotation` is
`cgmath::Deg<f32>`, kept here as a real number of degrees. -/
structure UniformStaging where
  camera : Camera
  model_rotation : ℝ

/-- `UniformStaging::update_uniforms` (`src/state/mod.rs`, lines 44-49). -/
noncomputable def UniformStaging.update_uniforms (st : UniformStaging) (u : Uniforms) : Uniforms :=
  { u with view_proj :=
      OPENGL_TO_WGPU_MATRIX * st.camera.build_view_projection_matrix *
        from_angle_z st.model_rotation }

/-- The width/height part of `wgpu::SwapChainDescriptor` mutated by the
program (`src/state/mod.rs`, lines 135-141 and 261-262). -/
structure SwapChainDescriptor where
  width : ℕ
  height : ℕ

/-- `State` (`src/state/mod.rs`, lines 80-96).  GPU handles that the program
never reads (`device`, `render_pipeline`) are modelled as abstract numeric
handles; `swap_chain` is a generation counter bumped every time
`device.create_swap_chain` allocates a fresh swap chain; `uniform_buffer`
holds the last uniforms written to the GPU queue. -/
structure State where
  sc_desc : SwapChainDescriptor
  swap_chain : ℕ
  device : ℕ
  clear_color : ℝ × ℝ × ℝ × ℝ
  uniforms : Uniforms
  uniform_staging : UniformStaging
  uniform_buffer : Uniforms
  render_pipeline : ℕ
  vertex_buffer : List Vertex
  index_buffer : List ℕ
  num_indices : ℕ
  size : ℕ × ℕ

/-- The deterministic tail of `State::new` (`src/state/mod.rs`,
lines 107-256), after the device/adapter negotiation: swap configuration
sized to `size`, camera at `(0,1,2)` looking at the origin with
`aspect = width / height`, rotation `0`, uniforms computed once, and the
initial sphere mesh at radius `1.0`. -/
noncomputable def State.init (size : ℕ × ℕ) : State :=
  let sc_desc : SwapChainDescriptor := { width := size.1, height := size.2 }
  let camera : Camera :=
    { eye := (0, 1, 2), target := (0, 0, 0), up := (0, 1, 0),
      aspect := (size.1 : ℝ) / (size.2 : ℝ), fovy := 45, znear := 0.1, zfar := 100 }
  let uniform_staging : UniformStaging := { camera := camera, model_rotation := 0 }
  let uniforms : Uniforms := uniform_staging.update_uniforms { view_proj := 1 }
  let vbo := Vertex.sphere_vertices 1
  let ibo := Vertex.sphere_indices
  { sc_desc := sc_desc,
    swap_chain := 0,
    device := 0,
    clear_color := (1, 1, 1, 1),
    uniforms := uniforms,
    uniform_staging := uniform_staging,
    uniform_buffer := uniforms,
    render_pipeline := 0,
    vertex_buffer := vbo,
    index_buffer := ibo,
    num_indices := ibo.length,
    size := size }

/-- `State::resize` (`src/state/mod.rs`, lines 259-264): store the new size,
update the swap configuration's width and height, and create a fresh swap
chain (unconditionally — there is no same-size check in the source). -/
def State.resize (s : State) (new_size : ℕ × ℕ) : State :=
  { s with size := new_size,
           sc_desc := { width := new_size.1, height := new_size.2 },
           swap_chain := s.swap_chain + 1 }

/-- The loop body of `State::input` (`src/state/mod.rs`, lines 270-277):
the color array computed from the vertex's position and the frame samples,
written into the vertex via `change_color`.  Rust operator precedence makes
the three expressions `(x * d2) % 256.0`, `y + (d1 % 256.0)` and
`(z / d0) % 256.0`, which is exactly how Lean parses the terms below. -/
noncomputable def recolor (vertex : Vertex) (frame : Frame) : Vertex :=
  let colors : F × F × F :=
    (vertex.position.1 * F.fin (frame.data.2.2 : ℝ) % F.fin 256,
     vertex.position.2.1 + F.fin (frame.data.2.1 : ℝ) % F.fin 256,
     vertex.position.2.2 / F.fin (frame.data.1 : ℝ) % F.fin 256)
  vertex.change_color colors

/-- `State::input` (`src/state/mod.rs`, lines 268-287): regenerate the
sphere at radius `1.0`, recolor every vertex from the single current frame,
replace the vertex buffer, and return `true`. -/
noncomputable def State.input (s : State) (frame : Frame) : State × Bool :=
  let vertices := (Vertex.sphere_vertices 1).map fun vertex => recolor vertex frame
  ({ s with vertex_buffer := vertices }, true)

/-- `State::update` (`src/state/mod.rs`, lines 293-301): advance the model
rotation by `2.0` degrees, recompute the uniforms, and write them to the
GPU-side uniform buffer. -/
noncomputable def State.update (s : State) : State :=
  let staging : UniformStaging :=
    { s.uniform_staging with model_rotation := s.uniform_staging.model_rotation + 2 }
  let uniforms := staging.update_uniforms s.uniforms
  { s with uniform_staging := staging, uniforms := uniforms, uniform_buffer := uniforms }

/-- `wgpu::SwapChainError` (wgpu 0.7), the error type returned by
`State::render`. -/
inductive SwapChainError where
  | Timeout : SwapChainError
  | Outdated : SwapChainError
  | Lost : SwapChainError
  | OutOfMemory : SwapChainError

/-- `winit::event_loop::ControlFlow`, restricted to the two values the
program uses: keep polling, or exit the event loop. -/
inductive ControlFlow where
  | Poll : ControlFlow
  | Exit : ControlFlow

/-- Observable lifecycle calls of one tick, for stating the error policy. -/
inductive Call where
  | update : Call
  | render : Call
  | resize : ℕ × ℕ → Call

/-- The `match state.render()` arms of `main` (`src/main.rs`,
lines 213-221): `Ok` does nothing; `Lost` calls `state.resize(state.size)`;
`OutOfMemory` sets `ControlFlow::Exit`; any other error (`Outdated`,
`Timeout`) is only logged.  The third component records the lifecycle calls
the handler makes. -/
def handlePresent (s : State) (cf : ControlFlow) (res : Except SwapChainError Unit) :
    State × ControlFlow × List Call :=
  match res with
  | Except.ok _ => (s, cf, [])
  | Except.error SwapChainError.Lost => (State.resize s s.size, cf, [Call.resize s.size])
  | Except.error SwapChainError.OutOfMemory => (s, ControlFlow.Exit, [])
  | Except.error _ => (s, cf, [])

/-- One `RedrawRequested` tick of the event loop (`src/main.rs`,
lines 211-222): `state.update()`, then `state.render()` whose outcome `res`
is injected, then the error-handling match. -/
noncomputable def tick (s : State) (cf : ControlFlow) (res : Except SwapChainError Unit) :
    State × ControlFlow × List Call :=
  let s1 := State.update s
  let h := handlePresent s1 cf res
  (h.1, h.2.1, Call.update :: Call.render :: h.2.2)

/-- The event loop driving one tick per injected render outcome; winit stops
dispatching once the control flow is `Exit`. -/
noncomputable def runLoop : State → ControlFlow → List (Except SwapChainError Unit) → List Call
  | _, _, [] => []
  | s, cf, res :: rest =>
      match cf with
      | ControlFlow.Exit => []
      | ControlFlow.Poll =>
          let t := tick s cf res
          t.2.2 ++ runLoop t.1 t.2.1 rest

/-- `wgpu::IndexFormat`. -/
inductive IndexFormat where
  | Uint16 : IndexFormat
  | Uint32 : IndexFormat

/-- Bit width of one index element under a `wgpu::IndexFormat`. -/
def IndexFormat.bits : IndexFormat → ℕ
  | IndexFormat.Uint16 => 16
  | IndexFormat.Uint32 => 32

/-- The index format `State::render` passes to `set_index_buffer`
(`src/state/mod.rs`, line 340). -/
def render_index_format : IndexFormat := IndexFormat.Uint16

/-- The element width of the mesh's index data: `sphere_indices` returns
`Vec<u32>` (`src/state/vertex/mod.rs`, line 145). -/
def mesh_index_bits : ℕ := 32

/-- Reinterpret a buffer of 32-bit little-endian values as 16-bit values,
as a `Uint16` index binding makes the GPU do. -/
def u32AsU16List (l : List ℕ) : List ℕ :=
  l.flatMap fun w => [w % 65536, w / 65536]

/-- Mathematical (non-negative for a positive modulus) remainder on reals,
as the claim's wording specifies the `mod 256` operation. -/
noncomputable def mathMod (a m : ℝ) : ℝ := a - m * (⌊a / m⌋ : ℝ)

/-- Following the claim wording for C1 (the spec's canonical color formula):
`r = x·d2 mod 256`, `g = y·d1 mod 256`, `b = z/d0 mod 256`, each modulo the
mathematical non-negative remainder. -/
noncomputable def specColor (p : V3) (d0 d1 d2 : ℤ) : V3 :=
  (mathMod (p.1 * (d2 : ℝ)) 256,
   mathMod (p.2.1 * (d1 : ℝ)) 256,
   mathMod (p.2.2 / (d0 : ℝ)) 256)

/-- Following the claim wording for C3 (the spec's sphere formula at radius
`r`, with stacks = 18 and sectors = 36): `stack_angle = π/2 - i·(π/18)`,
`sector_angle = j·(2π/36)`, `xy = r·cos(stack_angle)`,
`position = (xy·cos(sector_angle), xy·sin(sector_angle), r·sin(stack_angle))`. -/
noncomputable def specSpherePos (r : ℝ) (i j : ℕ) : V3 :=
  let stack_angle : ℝ := Real.pi / 2 - (i : ℝ) * (Real.pi / 18)
  let sector_angle : ℝ := (j : ℝ) * (2 * Real.pi / 36)
  let xy : ℝ := r * Real.cos stack_angle
  (xy * Real.cos sector_angle, xy * Real.sin sector_angle, r * Real.sin stack_angle)

/-- Following the claim wording for C4 (the spec's index-emission rule): for
`i` in `[0, stacks)` and `j` in `[0, sectors)`, with `k1 = i·(sectors+1)+j`
and `k2 = k1+(sectors+1)`, emit `(k1, k2, k1+1)` iff `i ≠ 0`, then
`(k1+1, k2, k2+1)` iff `i ≠ stacks−1`, with stacks = 18, sectors = 36. -/
def claimIndices : List ℕ :=
  (List.range 18).flatMap fun i => (List.range 36).flatMap fun j =>
    let k1 := i * (36 + 1) + j
    let k2 := k1 + (36 + 1)
    (if i ≠ 0 then [k1, k2, k1 + 1] else []) ++
    (if i ≠ 18 - 1 then [k1 + 1, k2, k2 + 1] else [])

/-- The block of indices one inner-loop iteration of `sphere_indices` pushes
when the running index `k1` equals `k` (and `k2 = k + 37`): the two
conditional triangles. -/
def rowAt (i k : ℕ) : List ℕ :=
  (if i ≠ 0 then [k, k + 37, k + 1] else []) ++
  (if i ≠ 17 then [k + 1, k + 37, k + 37 + 1] else [])

/-! ## Helper lemmas -/

theorem F.fin_mul_fin (a b : ℝ) : F.fin a * F.fin b = F.fin (a * b) := rfl

theorem F.fin_add_fin (a b : ℝ) : F.fin a + F.fin b = F.fin (a + b) := rfl

theorem F.fin_div_fin (a b : ℝ) (h : b ≠ 0) : F.fin a / F.fin b = F.fin (a / b) := by
  show F.div (F.fin a) (F.fin b) = F.fin (a / b)
  rw [F.div, if_neg h]

theorem F.fin_rem_fin (a b : ℝ) (h : b ≠ 0) :
    F.fin a % F.fin b = F.fin (a - b * rtrunc (a / b)) := by
  show F.rem (F.fin a) (F.fin b) = F.fin (a - b * rtrunc (a / b))
  rw [F.rem, if_neg h]

theorem F.fin_div_fin_zero (a : ℝ) :
    F.fin a / F.fin 0 = if a = 0 then F.nan else F.inf (decide (a < 0)) := by
  show F.div (F.fin a) (F.fin 0) = _
  rw [F.div, if_pos rfl]

theorem F.nan_rem (b : F) : F.nan % b = F.nan := by
  show F.rem F.nan b = F.nan
  cases b <;> rfl

theorem F.inf_rem (s : Bool) (b : F) : F.inf s % b = F.nan := by
  show F.rem (F.inf s) b = F.nan
  cases b <;> rfl

theorem rtrunc_of_nonneg (x : ℝ) (h : 0 ≤ x) : rtrunc x = (⌊x⌋ : ℝ) := if_pos h

theorem rtrunc_of_neg (x : ℝ) (h : x < 0) : rtrunc x = (⌈x⌉ : ℝ) := if_neg (not_le.mpr h)

theorem flatMapRange_length {α : Type} (f : ℕ → ℕ → α) (b : ℕ) :
    ∀ a, ((List.range a).flatMap fun i => (List.range b).map (f i)).length = a * b := by
  intro a
  induction a with
  | zero => simp
  | succ n ih =>
      rw [List.range_succ, List.flatMap_append]
      simp [ih, Nat.succ_mul]

theorem flatMapRange_getElem {α : Type} (f : ℕ → ℕ → α) (b : ℕ) :
    ∀ a i j, i < a → j < b →
      ((List.range a).flatMap fun i => (List.range b).map (f i))[i * b + j]? = some (f i j) := by
  intro a
  induction a with
  | zero => intro i j hi _; exact absurd hi (Nat.not_lt_zero i)
  | succ n ih =>
      intro i j hi hj
      rw [List.range_succ, List.flatMap_append]
      by_cases h : i < n
      · have hlen : i * b + j < ((List.range n).flatMap fun i => (List.range b).map (f i)).length := by
          rw [flatMapRange_length f b n]
          have h1 : i * b + j < (i + 1) * b := by
            have := Nat.add_lt_add_left hj (i * b)
            calc i * b + j < i * b + b := this
            _ = (i + 1) * b := by ring
          exact lt_of_lt_of_le h1 (Nat.mul_le_mul_right b h)
        rw [List.getElem?_append_left hlen]
        exact ih i j h hj
      · have hin : i = n := by omega
        subst hin
        have hlen : ((List.range i).flatMap fun i => (List.range b).map (f i)).length = i * b :=
          flatMapRange_length f b i
        rw [List.getElem?_append_right (by rw [hlen]; exact Nat.le_add_right (i * b) j)]
        rw [hlen]
        simp [Nat.add_sub_cancel_left, List.getElem?_map, List.getElem?_range hj]

theorem sphere_vertices_len (r : ℝ) : (Vertex.sphere_vertices r).length = 703 :=
  (flatMapRange_length (fun i j => sphereVertex r i j) 37 19).trans (by norm_num)

theorem sphere_vertices_getElem (r : ℝ) (i j : ℕ) (hi : i < 19) (hj : j < 37) :
    (Vertex.sphere_vertices r)[i * 37 + j]? = some (sphereVertex r i j) :=
  flatMapRange_getElem (fun i j => sphereVertex r i j) 37 19 i j hi hj

theorem runLoop_exit (s : State) (rs : List (Except SwapChainError Unit)) :
    runLoop s ControlFlow.Exit rs = [] := by
  cases rs <;> rfl


theorem indicesInner_row (i : ℕ) :
    ∀ c base, indicesInner i c base (base + 37) =
      (List.range c).flatMap fun j => rowAt i (base + j) := by
  intro c
  induction c with
  | zero => intro base; simp [indicesInner]
  | succ n ih =>
      intro base
      have e1 : base + 37 + 1 = base + 1 + 37 := by omega
      have hfun : ∀ j : ℕ, rowAt i (base + Nat.succ j) = rowAt i (base + 1 + j) :=
        fun j => congrArg (rowAt i) (by omega)
      simp only [indicesInner, rowAt, List.append_assoc, e1, ih (base + 1),
        List.range_succ_eq_map, List.flatMap_cons, List.flatMap_map, hfun, Nat.add_zero]
      simp only [Nat.succ_eq_add_one, Nat.add_assoc, Nat.add_comm, Nat.add_left_comm]

theorem sphere_indices_eq : Vertex.sphere_indices = claimIndices := by
  rw [Vertex.sphere_indices, claimIndices]
  refine congrArg _ (funext fun i => ?_)
  rw [indicesInner_row i 36 (i * 37)]
  refine congrArg _ (funext fun j => ?_)
  simp only [rowAt]

theorem indicesInner_le (i : ℕ) :
    ∀ c k1 k2, k1 ≤ k2 → ∀ x ∈ indicesInner i c k1 k2, x ≤ k2 + c := by
  intro c
  induction c with
  | zero => intro k1 k2 _ x hx; simp [indicesInner] at hx
  | succ n ih =>
      intro k1 k2 hk x hx
      simp only [indicesInner, List.mem_append] at hx
      rcases hx with (h | h) | h
      · by_cases h0 : i ≠ 0
        · rw [if_pos h0] at h
          simp only [List.mem_cons, List.not_mem_nil, or_false] at h
          omega
        · rw [if_neg h0] at h
          simp at h
      · by_cases h17 : i ≠ 17
        · rw [if_pos h17] at h
          simp only [List.mem_cons, List.not_mem_nil, or_false] at h
          omega
        · rw [if_neg h17] at h
          simp at h
      · have := ih (k1 + 1) (k2 + 1) (by omega) x h
        omega

theorem indicesInner_length_mod3 (i : ℕ) :
    ∀ c k1 k2, (indicesInner i c k1 k2).length % 3 = 0 := by
  intro c
  induction c with
  | zero => intro k1 k2; simp [indicesInner]
  | succ n ih =>
      intro k1 k2
      have hrec := ih (k1 + 1) (k2 + 1)
      by_cases h0 : i ≠ 0 <;> by_cases h17 : i ≠ 17 <;>
        simp [indicesInner, h0, h17] <;> omega

theorem triplesOf_append_mod3 :
    ∀ l m : List ℕ, l.length % 3 = 0 → triplesOf (l ++ m) = triplesOf l ++ triplesOf m
  | [], _, _ => rfl
  | [_], _, h => by simp at h
  | [_, _], _, h => by simp at h
  | a :: b :: c :: rest, m, h => by
      have hr : rest.length % 3 = 0 := by
        simp only [List.length_cons] at h
        omega
      simp only [List.cons_append, triplesOf, List.append_eq, triplesOf_append_mod3 rest m hr]

theorem triplesOf_flatMap {α : Type} (g : α → List ℕ) (hlen : ∀ x, (g x).length % 3 = 0) :
    ∀ l : List α, triplesOf (l.flatMap g) = l.flatMap fun x => triplesOf (g x) := by
  intro l
  induction l with
  | nil => rfl
  | cons a l ih =>
      rw [List.flatMap_cons, triplesOf_append_mod3 _ _ (hlen a), ih, List.flatMap_cons]

theorem indicesInner_triples (i : ℕ) :
    ∀ c k1 k2, k1 + 1 < k2 → ∀ t ∈ triplesOf (indicesInner i c k1 k2),
      t.1 ≠ t.2.1 ∧ t.1 ≠ t.2.2 ∧ t.2.1 ≠ t.2.2 := by
  intro c
  induction c with
  | zero => intro k1 k2 _ t ht; simp [indicesInner, triplesOf] at ht
  | succ n ih =>
      intro k1 k2 hk t ht
      by_cases h0 : i ≠ 0 <;> by_cases h17 : i ≠ 17
      · simp only [indicesInner, if_pos h0, if_pos h17, List.cons_append, List.nil_append,
          triplesOf, List.mem_cons] at ht
        rcases ht with h | h | h
        · subst h; refine ⟨?_, ?_, ?_⟩ <;> simp <;> omega
        · subst h; refine ⟨?_, ?_, ?_⟩ <;> simp <;> omega
        · exact ih (k1 + 1) (k2 + 1) (by omega) t h
      · simp only [indicesInner, if_pos h0, if_neg h17, List.cons_append, List.nil_append,
          triplesOf, List.mem_cons] at ht
        rcases ht with h | h
        · subst h; refine ⟨?_, ?_, ?_⟩ <;> simp <;> omega
        · exact ih (k1 + 1) (k2 + 1) (by omega) t h
      · simp only [indicesInner, if_neg h0, if_pos h17, List.cons_append, List.nil_append,
          triplesOf, List.mem_cons] at ht
        rcases ht with h | h
        · subst h; refine ⟨?_, ?_, ?_⟩ <;> simp <;> omega
        · exact ih (k1 + 1) (k2 + 1) (by omega) t h
      · omega

/-! ## Claims C4, C5, C6, C9 -/

/-- Claim C4: `sphere_indices` emits index triples exactly by the spec rule
(`k1 = i·(sectors+1)+j`, `k2 = k1+(sectors+1)`; triangle `(k1, k2, k1+1)`
iff `i ≠ 0`, then triangle `(k1+1, k2, k2+1)` iff `i ≠ stacks−1`), in that
iteration order, with the fixed stacks = 18 and sectors = 36. -/
theorem claim4_index_emission : Vertex.sphere_indices = claimIndices :=
  sphere_indices_eq

/-- Claim C5: for every radius `r`, `sphere_vertices r` returns exactly
`(18+1)·(36+1) = 703` vertices. -/
theorem claim5_vertex_count (r : ℝ) :
    (Vertex.sphere_vertices r).length = (18 + 1) * (36 + 1) :=
  (sphere_vertices_len r).trans (by norm_num)

/-- Claim C6: every index emitted by `sphere_indices` is strictly below the
number of vertices returned by `sphere_vertices` (703), and within every
emitted triangle the three indices are pairwise distinct. -/
theorem claim6_mesh_wellformed :
    (Vertex.sphere_indices.all fun k => decide (k < (Vertex.sphere_vertices 1).length)) = true ∧
    ((triplesOf Vertex.sphere_indices).all fun t =>
        decide (t.1 ≠ t.2.1) && decide (t.1 ≠ t.2.2) && decide (t.2.1 ≠ t.2.2)) = true := by
  constructor
  · rw [List.all_eq_true]
    intro k hk
    simp only [decide_eq_true_eq]
    rw [sphere_vertices_len 1]
    rw [Vertex.sphere_indices] at hk
    rcases List.mem_flatMap.mp hk with ⟨i, hi, hx⟩
    have hi18 : i < 18 := List.mem_range.mp hi
    have := indicesInner_le i 36 (i * 37) (i * 37 + 37) (by omega) k hx
    omega
  · rw [List.all_eq_true]
    intro t ht
    simp only [Bool.and_eq_true, decide_eq_true_eq]
    rw [Vertex.sphere_indices,
      triplesOf_flatMap _ (fun i => indicesInner_length_mod3 i 36 (i * 37) (i * 37 + 37))] at ht
    rcases List.mem_flatMap.mp ht with ⟨i, _, hx⟩
    have h := indicesInner_triples i 36 (i * 37) (i * 37 + 37) (by omega) t hx
    exact ⟨⟨h.1, h.2.1⟩, h.2.2⟩

/-- Claim C9 (code bug): the mesh indices are 32-bit (`Vec<u32>`) and the
single indexed draw covers all `num_indices = length of sphere_indices()`
entries, but `render` binds the index buffer with `IndexFormat::Uint16`,
which does not match: read as 16-bit little-endian entries, the buffer's
leading values become `[1, 0, 37, 0, 38, 0]` instead of
`[1, 37, 38, 2, 38, 39]`. -/
theorem claim9_index_format_mismatch :
    IndexFormat.bits render_index_format = 16 ∧
    mesh_index_bits = 32 ∧
    IndexFormat.bits render_index_format ≠ mesh_index_bits ∧
    (State.init (800, 600)).num_indices = Vertex.sphere_indices.length ∧
    Vertex.sphere_indices.take 6 = [1, 37, 38, 2, 38, 39] ∧
    (u32AsU16List Vertex.sphere_indices).take 6 = [1, 0, 37, 0, 38, 0] :=
  ⟨rfl, rfl, by decide, rfl, by decide, by decide⟩

/-! ## Claims C7, C8, C10 -/

/-- Claim C7: the frame loop's error policy. When `render` returns `Lost`,
the tick's next lifecycle call after `render` is `resize` with the current
stored size. When it returns `OutOfMemory`, the loop sets `Exit` and makes
no further calls at all (in particular no render calls), whatever outcomes
would follow. When it returns a transient error (`Outdated`/`Timeout`), the
tick performs no extra lifecycle call, the handler leaves the state exactly
as the unconditional `update` left it, and the loop proceeds with the next
tick. -/
theorem claim7_error_policy (s : State) (rs : List (Except SwapChainError Unit)) :
    (tick s ControlFlow.Poll (Except.error SwapChainError.Lost) =
        (State.resize (State.update s) s.size, ControlFlow.Poll,
         [Call.update, Call.render, Call.resize s.size]) ∧
      (State.update s).size = s.size) ∧
    (runLoop s ControlFlow.Poll (Except.error SwapChainError.OutOfMemory :: rs) =
        [Call.update, Call.render] ∧
      (tick s ControlFlow.Poll (Except.error SwapChainError.OutOfMemory)).2.1 =
        ControlFlow.Exit) ∧
    (runLoop s ControlFlow.Poll (Except.error SwapChainError.Outdated :: rs) =
        Call.update :: Call.render :: runLoop (State.update s) ControlFlow.Poll rs ∧
      (tick s ControlFlow.Poll (Except.error SwapChainError.Outdated)).1 = State.update s ∧
      (tick s ControlFlow.Poll (Except.error SwapChainError.Outdated)).2.1 = ControlFlow.Poll ∧
      (tick s ControlFlow.Poll (Except.error SwapChainError.Timeout)).1 = State.update s ∧
      (tick s ControlFlow.Poll (Except.error SwapChainError.Timeout)).2.1 = ControlFlow.Poll) := by
  refine ⟨⟨rfl, rfl⟩, ⟨?_, rfl⟩, ⟨?_, rfl, rfl, rfl, rfl⟩⟩
  · show (tick s ControlFlow.Poll _).2.2 ++
        runLoop _ (tick s ControlFlow.Poll _).2.1 rs = _
    rw [show (tick s ControlFlow.Poll (Except.error SwapChainError.OutOfMemory)).2.1 =
        ControlFlow.Exit from rfl, runLoop_exit]
    rfl
  · rfl

/-- Claim C8, amended: `resize` always updates the stored size and the swap
configuration's width and height to `new_size`, leaves the pipeline, the
device, and the whole uniform staging (camera included, hence also its
`aspect`) untouched — but it rebuilds the swap chain unconditionally, also
when `new_size` equals the current size (so a same-size resize is not a
no-op), and it never recomputes the camera's aspect. -/
theorem claim8_resize_effect (s : State) (new_size : ℕ × ℕ) :
    (State.resize s new_size).size = new_size ∧
    (State.resize s new_size).sc_desc.width = new_size.1 ∧
    (State.resize s new_size).sc_desc.height = new_size.2 ∧
    (State.resize s new_size).render_pipeline = s.render_pipeline ∧
    (State.resize s new_size).device = s.device ∧
    (State.resize s new_size).uniform_staging = s.uniform_staging ∧
    (State.resize s new_size).uniform_staging.camera.aspect =
      s.uniform_staging.camera.aspect ∧
    (State.resize s new_size).swap_chain = s.swap_chain + 1 :=
  ⟨rfl, rfl, rfl, rfl, rfl, rfl, rfl, rfl⟩

/-- Claim C8 counterexample: starting from the state built for an 800×600
window, resizing to the very same stored size is not a no-op (the swap
chain is rebuilt), and resizing to 400×100 leaves the camera's aspect at
`800/600` instead of recomputing `400/100`. -/
theorem claim8_counterexample :
    State.resize (State.init (800, 600)) (State.init (800, 600)).size ≠
      State.init (800, 600) ∧
    (State.resize (State.init (800, 600)) (400, 100)).uniform_staging.camera.aspect =
      800 / 600 ∧
    (800 / 600 : ℝ) ≠ 400 / 100 := by
  refine ⟨?_, ?_, by norm_num⟩
  · intro h
    have h2 := congrArg State.swap_chain h
    have h3 : (State.init (800, 600)).swap_chain + 1 = (State.init (800, 600)).swap_chain := h2
    omega
  · show ((800 : ℕ) : ℝ) / ((600 : ℕ) : ℝ) = 800 / 600
    norm_num

/-- Claim C10: every `update()` call increments the model rotation by
exactly 2 degrees (unconditionally — `update` takes no audio input and this
holds for every state), and sets the uniform matrix to exactly
`remap * perspective(fovy, aspect, znear, zfar) * look_at(eye, target, up)
* rotate_z(new angle)`; the freshly computed uniforms are also what is
written to the GPU-side uniform buffer. -/
theorem claim10_update_uniforms (s : State) :
    (State.update s).uniform_staging.model_rotation =
      s.uniform_staging.model_rotation + 2 ∧
    (State.update s).uniforms.view_proj =
      OPENGL_TO_WGPU_MATRIX *
        perspective s.uniform_staging.camera.fovy s.uniform_staging.camera.aspect
          s.uniform_staging.camera.znear s.uniform_staging.camera.zfar *
        look_at_rh s.uniform_staging.camera.eye s.uniform_staging.camera.target
          s.uniform_staging.camera.up *
        from_angle_z (s.uniform_staging.model_rotation + 2) ∧
    (State.update s).uniform_buffer = (State.update s).uniforms := by
  refine ⟨rfl, ?_, rfl⟩
  show (OPENGL_TO_WGPU_MATRIX * Camera.build_view_projection_matrix _ *
      from_angle_z (s.uniform_staging.model_rotation + 2)) = _
  rw [Camera.build_view_projection_matrix]
  simp only [mul_assoc]

/-! ## Claims C1, C2, C3 -/

theorem sphereVertex_eq_spec (r : ℝ) (i j : ℕ) :
    sphereVertex r i j =
      { position := (F.fin (specSpherePos (r / 10) i j).1,
                     F.fin (specSpherePos (r / 10) i j).2.1,
                     F.fin (specSpherePos (r / 10) i j).2.2),
        color := (F.fin 0, F.fin 0, F.fin 0) } := rfl

theorem fin_div_zero_rem (z : ℝ) : F.fin z / F.fin 0 % F.fin 256 = F.nan := by
  rw [F.fin_div_fin_zero]
  by_cases hz : z = 0
  · rw [if_pos hz]
    exact F.nan_rem _
  · rw [if_neg hz]
    exact F.inf_rem _ _

theorem input_getElem (s : State) (f : Frame) (i j : ℕ) (hi : i < 19) (hj : j < 37) :
    ((State.input s f).1.vertex_buffer)[i * 37 + j]? =
      some (recolor (sphereVertex 1 i j) f) := by
  show ((Vertex.sphere_vertices 1).map fun v => recolor v f)[i * 37 + j]? = _
  rw [List.getElem?_map, sphere_vertices_getElem 1 i j hi hj]
  rfl

/-- Claim C1, amended: `State::input` recolors every mesh vertex from its
own generated position (the spec sphere formula at effective radius `1/10`)
and the single current frame, but by the formula the code computes:
`color.r = (x · d2) rem 256`, `color.g = y + (d1 rem 256)` (addition, with
the remainder applied to the sample alone), `color.b = (z / d0) rem 256`,
where `rem` is Rust's truncated float remainder (sign of the dividend), not
the mathematical non-negative remainder. -/
theorem claim1_recolor_formula (s : State) (f : Frame) (i j : ℕ)
    (hi : i < 19) (hj : j < 37) :
    ((State.input s f).1.vertex_buffer)[i * 37 + j]? =
      some { position := (F.fin (specSpherePos (1 / 10) i j).1,
                          F.fin (specSpherePos (1 / 10) i j).2.1,
                          F.fin (specSpherePos (1 / 10) i j).2.2),
             color :=
               (F.fin (specSpherePos (1 / 10) i j).1 * F.fin (f.data.2.2 : ℝ) % F.fin 256,
                F.fin (specSpherePos (1 / 10) i j).2.1 + F.fin (f.data.2.1 : ℝ) % F.fin 256,
                F.fin (specSpherePos (1 / 10) i j).2.2 / F.fin (f.data.1 : ℝ) % F.fin 256) } := by
  rw [input_getElem s f i j hi hj, sphereVertex_eq_spec]
  rfl

/-- Claim C1 witness: at stack 0 / sector 0 (position `(0, 0, 1/10)`) with
frame data `[8, 10, 20]`, the recolored vertex 0 has color
`(0, 10, 1/80)` — green is `0 + (10 rem 256) = 10`, not `0·10 mod 256`. -/
theorem claim1_witness :
    (0 : ℕ) < 19 ∧ (0 : ℕ) < 37 ∧
    ((State.input (State.init (800, 600)) ⟨(8, 10, 20)⟩).1.vertex_buffer)[0]? =
      some { position := (F.fin 0, F.fin 0, F.fin (1 / 10)),
             color := (F.fin 0, F.fin 10, F.fin (1 / 80)) } := by
  refine ⟨by norm_num, by norm_num, ?_⟩
  have h := claim1_recolor_formula (State.init (800, 600)) ⟨(8, 10, 20)⟩ 0 0
    (by norm_num) (by norm_num)
  simp only [Nat.zero_mul, Nat.add_zero] at h
  rw [h]
  have hp : specSpherePos (1 / 10 : ℝ) 0 0 = (0, 0, 1 / 10) := by
    simp [specSpherePos, Real.cos_pi_div_two, Real.sin_pi_div_two]
  rw [hp]
  norm_num [F.fin_mul_fin, F.fin_add_fin, F.fin_div_fin, F.fin_rem_fin, rtrunc]

/-- Claim C1 counterexample: at the claim's own concrete case, position
`(2, 3, 4)` with frame data `[8, 10, 20]`, the code computes
`(40, 13, 1/2)` — not the claimed `(40, 30, 0.5)`, because green is
`3 + (10 rem 256) = 13` rather than `3·10 mod 256 = 30`; moreover the red
channel uses the truncated remainder: at position `(-1, 0, 0)` with data
`[1, 0, 300]` the code yields `-44` where the claimed mathematical
non-negative remainder is `212`. -/
theorem claim1_counterexample :
    (recolor { position := (F.fin 2, F.fin 3, F.fin 4), color := (F.fin 0, F.fin 0, F.fin 0) }
        ⟨(8, 10, 20)⟩).color = (F.fin 40, F.fin 13, F.fin (1 / 2)) ∧
    specColor (2, 3, 4) 8 10 20 = (40, 30, 1 / 2) ∧
    (F.fin (13 : ℝ)) ≠ F.fin 30 ∧
    (recolor { position := (F.fin (-1), F.fin 0, F.fin 0), color := (F.fin 0, F.fin 0, F.fin 0) }
        ⟨(1, 0, 300)⟩).color.1 = F.fin (-44) ∧
    specColor (-1, 0, 0) 1 0 300 = (212, 0, 0) ∧
    (F.fin (-44 : ℝ)) ≠ F.fin 212 := by
  refine ⟨?_, ?_, ?_, ?_, ?_, ?_⟩
  · show (F.fin 2 * F.fin ((20 : ℤ) : ℝ) % F.fin 256,
          F.fin 3 + F.fin ((10 : ℤ) : ℝ) % F.fin 256,
          F.fin 4 / F.fin ((8 : ℤ) : ℝ) % F.fin 256) = _
    norm_num [F.fin_mul_fin, F.fin_add_fin, F.fin_div_fin, F.fin_rem_fin, rtrunc]
  · norm_num [specColor, mathMod, Prod.ext_iff]
  · simp only [ne_eq, F.fin.injEq]
    norm_num
  · show F.fin (-1) * F.fin ((300 : ℤ) : ℝ) % F.fin 256 = _
    have hc : ⌈-(75 / 64 : ℝ)⌉ = -1 := by
      rw [Int.ceil_eq_iff]
      norm_num
    rw [F.fin_mul_fin, F.fin_rem_fin _ _ (by norm_num), rtrunc_of_neg _ (by norm_num)]
    norm_num [hc]
  · norm_num [specColor, mathMod, Prod.ext_iff]
  · simp only [ne_eq, F.fin.injEq]
    norm_num

/-- Claim C2, amended: when `frame.data[0] = 0`, every recolored vertex's
blue channel is NaN (the float division by zero yields an infinity — or NaN
for the vertices with `z = 0` — and the remainder by 256 of either is NaN);
no panic occurs (`State::input` is a total function and still returns). -/
theorem claim2_div_zero_blue_nan (s : State) (f : Frame) (h0 : f.data.1 = 0)
    (k : ℕ) (hk : k < 703) :
    (((State.input s f).1.vertex_buffer)[k]?).map (fun v => v.color.2.2) = some F.nan ∧
    (State.input s f).2 = true := by
  refine ⟨?_, rfl⟩
  have hi : k / 37 < 19 := by omega
  have hj : k % 37 < 37 := by omega
  have hk2 : k / 37 * 37 + k % 37 = k := by omega
  have h1 := input_getElem s f (k / 37) (k % 37) hi hj
  rw [hk2] at h1
  rw [h1]
  show some ((recolor (sphereVertex 1 (k / 37) (k % 37)) f).color.2.2) = some F.nan
  have h2 : (recolor (sphereVertex 1 (k / 37) (k % 37)) f).color.2.2 =
      F.fin ((1 / 10 : ℝ) * Real.sin (Real.pi / 2 - (k / 37 : ℕ) * (Real.pi / 18))) /
        F.fin (f.data.1 : ℝ) % F.fin 256 := rfl
  rw [h2, h0]
  rw [show ((0 : ℤ) : ℝ) = 0 from Int.cast_zero]
  rw [fin_div_zero_rem]

/-- Claim C2 witness: with frame data `[0, 5, 7]`, vertex 0's blue channel
is NaN and `input` still returns `true`. -/
theorem claim2_witness :
    (⟨(0, 5, 7)⟩ : Frame).data.1 = 0 ∧ (0 : ℕ) < 703 ∧
    (((State.input (State.init (800, 600)) ⟨(0, 5, 7)⟩).1.vertex_buffer)[0]?).map
        (fun v => v.color.2.2) = some F.nan ∧
    (State.input (State.init (800, 600)) ⟨(0, 5, 7)⟩).2 = true := by
  refine ⟨rfl, by norm_num, ?_, ?_⟩
  · exact (claim2_div_zero_blue_nan (State.init (800, 600)) ⟨(0, 5, 7)⟩ rfl 0 (by norm_num)).1
  · exact (claim2_div_zero_blue_nan (State.init (800, 600)) ⟨(0, 5, 7)⟩ rfl 0 (by norm_num)).2

/-- Claim C2 counterexample: with frame data `[0, 5, 7]`, vertex 0's blue
channel is NaN — not the claimed `0.0`. -/
theorem claim2_counterexample :
    (((State.input (State.init (800, 600)) ⟨(0, 5, 7)⟩).1.vertex_buffer)[0]?).map
        (fun v => v.color.2.2) = some F.nan ∧
    F.nan ≠ F.fin 0 := by
  constructor
  · have h1 : ((State.input (State.init (800, 600)) ⟨(0, 5, 7)⟩).1.vertex_buffer)[0]? =
        some (recolor (sphereVertex 1 0 0) ⟨(0, 5, 7)⟩) := by
      have h := input_getElem (State.init (800, 600)) ⟨(0, 5, 7)⟩ 0 0 (by norm_num) (by norm_num)
      simpa using h
    rw [h1]
    show some ((recolor (sphereVertex 1 0 0) ⟨(0, 5, 7)⟩).color.2.2) = some F.nan
    have h2 : (recolor (sphereVertex 1 0 0) ⟨(0, 5, 7)⟩).color.2.2 =
        F.fin ((1 / 10 : ℝ) * Real.sin (Real.pi / 2 - (0 : ℕ) * (Real.pi / 18))) /
          F.fin ((0 : ℤ) : ℝ) % F.fin 256 := rfl
    rw [h2, show ((0 : ℤ) : ℝ) = 0 from Int.cast_zero, fin_div_zero_rem]
  · simp

/-- Claim C3, amended: the vertex generated by `sphere_vertices r` at stack
index `i` and sector index `j` has position given by the spec formula at
the effective radius `r / 10` (the source divides `r` by `10.0`), with
`stack_angle = π/2 - i·(π/18)` and `sector_angle = j·(2π/36)`; consequently
every generated position lies at distance `|r|/10` from the origin (its
squared norm is `(r/10)²`, not `r²`), and every initial color is
`(0, 0, 0)`. -/
theorem claim3_sphere_positions (r : ℝ) (i j : ℕ) (hi : i < 19) (hj : j < 37) :
    (Vertex.sphere_vertices r)[i * 37 + j]? =
      some { position := (F.fin (specSpherePos (r / 10) i j).1,
                          F.fin (specSpherePos (r / 10) i j).2.1,
                          F.fin (specSpherePos (r / 10) i j).2.2),
             color := (F.fin 0, F.fin 0, F.fin 0) } ∧
    (specSpherePos (r / 10) i j).1 ^ 2 + (specSpherePos (r / 10) i j).2.1 ^ 2 +
        (specSpherePos (r / 10) i j).2.2 ^ 2 = (r / 10) ^ 2 := by
  constructor
  · rw [sphere_vertices_getElem r i j hi hj, sphereVertex_eq_spec]
  · simp only [specSpherePos]
    have h1 := Real.sin_sq_add_cos_sq (Real.pi / 2 - (i : ℝ) * (Real.pi / 18))
    have h2 := Real.sin_sq_add_cos_sq ((j : ℝ) * (2 * Real.pi / 36))
    linear_combination
      (r / 10) ^ 2 * Real.cos (Real.pi / 2 - (i : ℝ) * (Real.pi / 18)) ^ 2 * h2 +
        (r / 10) ^ 2 * h1

/-- Claim C3 witness: at `r = 10`, stack 0 / sector 0, the generated vertex
is `(0, 0, 1)` with color `(0, 0, 0)`, and its squared norm is
`(10/10)² = 1`. -/
theorem claim3_witness :
    (0 : ℕ) < 19 ∧ (0 : ℕ) < 37 ∧
    (Vertex.sphere_vertices 10)[0]? =
      some { position := (F.fin 0, F.fin 0, F.fin 1),
             color := (F.fin 0, F.fin 0, F.fin 0) } ∧
    ((0 : ℝ) ^ 2 + (0 : ℝ) ^ 2 + (1 : ℝ) ^ 2 = ((10 : ℝ) / 10) ^ 2) := by
  refine ⟨by norm_num, by norm_num, ?_, by norm_num⟩
  have h := (claim3_sphere_positions 10 0 0 (by norm_num) (by norm_num)).1
  simp only [Nat.zero_mul, Nat.add_zero] at h
  rw [h]
  have hp : specSpherePos ((10 : ℝ) / 10) 0 0 = (0, 0, 1) := by
    simp [specSpherePos, Real.cos_pi_div_two, Real.sin_pi_div_two]
  rw [hp]

/-- Claim C3 counterexample: at `r = 10` the first generated vertex is
`(0, 0, 1)`, while the claim's formula (with radius `r`, not `r/10`)
demands `(0, 0, 10)`; the two `z` components differ. -/
theorem claim3_counterexample :
    (Vertex.sphere_vertices 10)[0]? =
      some { position := (F.fin 0, F.fin 0, F.fin 1),
             color := (F.fin 0, F.fin 0, F.fin 0) } ∧
    specSpherePos 10 0 0 = (0, 0, 10) ∧
    (F.fin (1 : ℝ)) ≠ F.fin 10 := by
  refine ⟨?_, ?_, ?_⟩
  · have h := sphere_vertices_getElem 10 0 0 (by norm_num) (by norm_num)
    simp only [Nat.zero_mul, Nat.add_zero] at h
    rw [h, sphereVertex_eq_spec]
    have hp : specSpherePos ((10 : ℝ) / 10) 0 0 = (0, 0, 1) := by
      simp [specSpherePos, Real.cos_pi_div_two, Real.sin_pi_div_two]
    rw [hp]
  · simp [specSpherePos, Real.cos_pi_div_two, Real.sin_pi_div_two]
  · simp only [ne_eq, F.fin.injEq]
    norm_num
